import Mathlib

/-!
# Verification of the spring-profile-resolver resolution pipeline

A shallow embedding, in Lean 4, of the core of the `spring_profile_resolver`
Python package: the profile-expression engine (`expressions.py`), the profile
group expander (`profiles.py`), the merge engine (`merger.py`), the
environment-variable source (`env_vars.py`), the Cloud-Foundry metadata source
(`vcap_services.py`), the placeholder resolver (`placeholders.py`), and the
document-filtering / call-wiring fragments of the orchestrator (`resolver.py`,
`models.py`).

Modelling conventions:
- Python `dict`s (ordered, string keys, unique keys, insertion order) are
  association lists `List (String × α)`; `dlookup` is `d[k]` / `k in d`,
  `dinsert` is `d[k] = v` (replace in place, else append).
- Python values inside a parsed configuration tree are the nested type
  `CValue` (strings, ints, bools, None, lists, dicts).
- Exceptions are `Except`: a raising Python function returns `.error`.
- `os.environ` is passed explicitly as an association list parameter
  (`sys_env`); functions reading it ambiently in Python take it as an
  argument here.
- Iteration/scanning loops whose termination is by progress through a string
  carry an explicit fuel argument; every wrapper supplies fuel that exceeds
  the number of loop steps (one character is consumed per step), so the
  fuel-exhausted branch is unreachable.
-/

namespace SPR

/-- A Python value inside a parsed configuration tree: string, int, bool,
`None`, list, or (ordered, string-keyed) dict.  Mirrors the value shapes
produced by the YAML/properties parsers and consumed by every component. -/
inductive CValue where
  | vstr (s : String)
  | vint (n : Int)
  | vbool (b : Bool)
  | vnull
  | vlist (items : List CValue)
  | vdict (entries : List (String × CValue))
  deriving Repr

/-- `models.ConfigSource`: where a configuration value originated. -/
structure ConfigSource where
  file_path : String
  line_number : Option Nat := none
  deriving DecidableEq, Repr

/-- `models.ConfigDocument`: a single parsed document with optional
activation profile (the cached `_parsed_expression` field is a memoisation
artefact with no behavioural content and is not modelled). -/
structure ConfigDocument where
  content : List (String × CValue)
  source_file : String
  activation_profile : Option String := none
  document_index : Nat := 0

/-- Python `k in d` / `d[k]` on a dict: first binding for the key. -/
def dlookup {α : Type} : List (String × α) → String → Option α
  | [], _ => none
  | (k, v) :: rest, key => if k = key then some v else dlookup rest key

/-- Python `d[k] = v` on a dict: replace the existing binding in place,
otherwise append a new binding (insertion order preserved). -/
def dinsert {α : Type} : List (String × α) → String → α → List (String × α)
  | [], key, value => [(key, value)]
  | (k, v) :: rest, key, value =>
    if k = key then (k, value) :: rest else (k, v) :: dinsert rest key value

/-- Keys of a dict, in insertion order. -/
def dkeys {α : Type} (d : List (String × α)) : List String := d.map Prod.fst

/-- Python `str.startswith`. -/
def str_startswith (s pre : String) : Bool :=
  pre.data.isPrefixOf s.data

/-- Python `str.strip()` (whitespace from both ends). -/
def pyStrip (s : String) : String :=
  String.mk (((s.data.dropWhile Char.isWhitespace).reverse.dropWhile Char.isWhitespace).reverse)

/-- Python `str.upper()` (ASCII model). -/
def pyUpper (s : String) : String :=
  String.mk (s.data.map Char.toUpper)

/-- One step of Python `str.replace` (non-overlapping, left to right); the
fuel exceeds the string length, and `pat` is nonempty at every use site. -/
def pyReplaceGo (pat rep : List Char) : Nat → List Char → List Char
  | _, [] => []
  | 0, s => s
  | fuel + 1, c :: rest =>
    if pat.isPrefixOf (c :: rest) then rep ++ pyReplaceGo pat rep fuel ((c :: rest).drop pat.length)
    else c :: pyReplaceGo pat rep fuel rest

/-- Python `s.replace(pat, rep)` for a nonempty pattern. -/
def pyReplace (s pat rep : String) : String :=
  String.mk (pyReplaceGo pat.data rep.data (s.data.length + 1) s.data)

/-- One step of Python `str.split(sep)` for a nonempty separator
(empty fields preserved, `"".split(sep) = [""]`). -/
def pySplitGo (sep : List Char) : Nat → List Char → List Char → List String
  | 0, cur, s => [String.mk (cur ++ s)]
  | fuel + 1, cur, s =>
    match s with
    | [] => [String.mk cur]
    | c :: rest =>
      if sep.isPrefixOf (c :: rest) then
        String.mk cur :: pySplitGo sep fuel [] ((c :: rest).drop sep.length)
      else pySplitGo sep fuel (cur ++ [c]) rest

/-- Python `s.split(sep)` for a nonempty separator. -/
def pySplit (s sep : String) : List String :=
  pySplitGo sep.data (s.data.length + 1) [] s.data

/-- Python truthiness of an optional string (`None` and `""` are falsy). -/
def pyTruthyStr : Option String → Bool
  | none => false
  | some s => s ≠ ""

/-- Python `"${" in value`. -/
def containsPlaceholderStart : List Char → Bool
  | [] => false
  | '$' :: '{' :: _ => true
  | _ :: rest => containsPlaceholderStart rest

/-- `Except.isOk` helper: did the Python call return normally (no exception)? -/
def except_is_ok {ε α : Type} : Except ε α → Bool
  | .ok _ => true
  | .error _ => false


/-! ## Expression engine (`expressions.py`) -/

/-- Token types of the profile-expression lexer. -/
inductive TokenType where
  | PROFILE
  | NOT
  | AND
  | OR
  | LPAREN
  | RPAREN
  | EOF
  deriving DecidableEq, Repr

/-- A single token from the expression lexer. -/
structure Token where
  type : TokenType
  value : String
  position : Nat
  deriving DecidableEq, Repr

/-- Profile-expression AST (`ProfileName` / `NotExpr` / `AndExpr` / `OrExpr`). -/
inductive ProfileExpr where
  | ProfileName (name : String)
  | NotExpr (operand : ProfileExpr)
  | AndExpr (left : ProfileExpr) (right : ProfileExpr)
  | OrExpr (left : ProfileExpr) (right : ProfileExpr)
  deriving DecidableEq, Repr

/-- `ProfileExpr.evaluate`: evaluation against the set of active profiles
(Python `set` membership over the active-profile list). -/
def ProfileExpr.evaluate : ProfileExpr → List String → Bool
  | .ProfileName name, active => active.contains name
  | .NotExpr operand, active => !(operand.evaluate active)
  | .AndExpr left right, active => left.evaluate active && right.evaluate active
  | .OrExpr left right, active => left.evaluate active || right.evaluate active

/-- Characters permitted in a profile name by `Lexer._read_profile_name`
(letters, digits, `- _ . + @`). -/
def isProfileNameChar (c : Char) : Bool :=
  c.isAlphanum || c = '-' || c = '_' || c = '.' || c = '+' || c = '@'

/-- `Lexer.tokens`: tokenize a profile expression.  One character is consumed
per step, so fuel `length + 1` never runs out.  (The quotation marks that the
Python error messages put around the offending character are elided.) -/
def lexTokens : Nat → Nat → List Char → Except String (List Token)
  | _, p, [] => .ok [⟨.EOF, "", p⟩]
  | 0, _, _ => .error "lexer fuel exhausted"
  | fuel + 1, p, c :: rest =>
    if c.isWhitespace then lexTokens fuel (p + 1) rest
    else if c = '!' then (lexTokens fuel (p + 1) rest).map (⟨.NOT, "!", p⟩ :: ·)
    else if c = '&' then (lexTokens fuel (p + 1) rest).map (⟨.AND, "&", p⟩ :: ·)
    else if c = '|' then (lexTokens fuel (p + 1) rest).map (⟨.OR, "|", p⟩ :: ·)
    else if c = '(' then (lexTokens fuel (p + 1) rest).map (⟨.LPAREN, "(", p⟩ :: ·)
    else if c = ')' then (lexTokens fuel (p + 1) rest).map (⟨.RPAREN, ")", p⟩ :: ·)
    else if isProfileNameChar c then
      let name : List Char := c :: rest.takeWhile isProfileNameChar
      (lexTokens fuel (p + name.length) (rest.dropWhile isProfileNameChar)).map
        (⟨.PROFILE, String.mk name, p⟩ :: ·)
    else .error ("Unexpected character at position " ++ toString p ++ ": " ++ String.mk [c])

/-- Current token of the parser (the lexer always terminates the stream with
an EOF token, so the empty case is unreachable). -/
def currentToken : List Token → Token
  | [] => ⟨.EOF, "", 0⟩
  | t :: _ => t

mutual
/-- `Parser._parse_or_expr`: `and_expr ("|" and_expr)*`. -/
def parse_or_expr : Nat → List Token → Except String (ProfileExpr × List Token)
  | 0, _ => .error "parser fuel exhausted"
  | fuel + 1, ts => do
    let (left, ts1) ← parse_and_expr fuel ts
    parse_or_loop fuel left ts1

/-- The `while current is "|"` loop of `Parser._parse_or_expr`. -/
def parse_or_loop : Nat → ProfileExpr → List Token → Except String (ProfileExpr × List Token)
  | 0, _, _ => .error "parser fuel exhausted"
  | fuel + 1, left, ts =>
    if (currentToken ts).type = .OR then do
      let (right, ts1) ← parse_and_expr fuel ts.tail
      parse_or_loop fuel (.OrExpr left right) ts1
    else .ok (left, ts)

/-- `Parser._parse_and_expr`: `unary ("&" unary)*`. -/
def parse_and_expr : Nat → List Token → Except String (ProfileExpr × List Token)
  | 0, _ => .error "parser fuel exhausted"
  | fuel + 1, ts => do
    let (left, ts1) ← parse_unary fuel ts
    parse_and_loop fuel left ts1

/-- The `while current is "&"` loop of `Parser._parse_and_expr`. -/
def parse_and_loop : Nat → ProfileExpr → List Token → Except String (ProfileExpr × List Token)
  | 0, _, _ => .error "parser fuel exhausted"
  | fuel + 1, left, ts =>
    if (currentToken ts).type = .AND then do
      let (right, ts1) ← parse_unary fuel ts.tail
      parse_and_loop fuel (.AndExpr left right) ts1
    else .ok (left, ts)

/-- `Parser._parse_unary`: `"!" unary | primary`. -/
def parse_unary : Nat → List Token → Except String (ProfileExpr × List Token)
  | 0, _ => .error "parser fuel exhausted"
  | fuel + 1, ts =>
    if (currentToken ts).type = .NOT then do
      let (operand, ts1) ← parse_unary fuel ts.tail
      .ok (.NotExpr operand, ts1)
    else parse_primary fuel ts

/-- `Parser._parse_primary`: `PROFILE | "(" expression ")"`. -/
def parse_primary : Nat → List Token → Except String (ProfileExpr × List Token)
  | 0, _ => .error "parser fuel exhausted"
  | fuel + 1, ts =>
    match (currentToken ts).type with
    | .PROFILE => .ok (.ProfileName (currentToken ts).value, ts.tail)
    | .LPAREN => do
      let (expr, ts1) ← parse_or_expr fuel ts.tail
      if (currentToken ts1).type = .RPAREN then .ok (expr, ts1.tail)
      else .error ("Expected RPAREN at position " ++ toString (currentToken ts1).position
        ++ ", got " ++ toString (repr (currentToken ts1).type))
    | _ => .error ("Expected profile name or ( at position "
        ++ toString (currentToken ts).position ++ ", got " ++ (currentToken ts).value)
end

/-- `Parser.parse`: empty-expression check, top-level or-expression, trailing
token check.  The parser only descends the four-level grammar or consumes a
token, so fuel `4 * tokens + 8` exceeds the recursion depth on every input. -/
def parseTokens (ts : List Token) : Except String ProfileExpr :=
  if (currentToken ts).type = .EOF then .error "Empty profile expression"
  else do
    let (expr, ts1) ← parse_or_expr (4 * ts.length + 8) ts
    if (currentToken ts1).type ≠ .EOF then
      .error ("Unexpected token at position " ++ toString (currentToken ts1).position
        ++ ": " ++ (currentToken ts1).value)
    else .ok expr

/-- `parse_profile_expression`: strip, tokenize (errors surface at parser
construction in Python), then parse. -/
def parse_profile_expression (expression : String) : Except String ProfileExpr := do
  let stripped := pyStrip expression
  let tokens ← lexTokens (stripped.data.length + 1) 0 stripped.data
  parseTokens tokens

/-- `evaluate_profile_expression`: parse then evaluate against the active set. -/
def evaluate_profile_expression (expression : String) (active_profiles : List String) :
    Except String Bool := do
  let expr ← parse_profile_expression expression
  .ok (expr.evaluate active_profiles)

/-- `is_simple_profile`: a stripped, nonempty expression containing none of
the operator characters `! & | ( )`. -/
def is_simple_profile (expression : String) : Bool :=
  let e := pyStrip expression
  if e = "" then false
  else e.data.all (fun c => !(c = '!' || c = '&' || c = '|' || c = '(' || c = ')'))

/-- `ConfigDocument.matches_profiles`: no activation means always applicable;
a "simple" activation is a direct membership test on the unstripped string;
otherwise the activation is parsed and evaluated (a parse failure raises). -/
def matches_profiles (activation_profile : Option String) (active_profiles : List String) :
    Except String Bool :=
  match activation_profile with
  | none => .ok true
  | some expr =>
    if is_simple_profile expr then .ok (active_profiles.contains expr)
    else evaluate_profile_expression expr active_profiles

/-- `profiles.get_applicable_documents`: the list comprehension
`[doc for doc in documents if doc.matches_profiles(active_profiles)]`;
an activation-expression error raised by `matches_profiles` propagates. -/
def get_applicable_documents (documents : List ConfigDocument) (active_profiles : List String) :
    Except String (List ConfigDocument) :=
  match documents with
  | [] => .ok []
  | doc :: rest => do
    let b ← matches_profiles doc.activation_profile active_profiles
    let filtered ← get_applicable_documents rest active_profiles
    .ok (if b then doc :: filtered else filtered)

/-! ## Profile group expander (`profiles.py`) -/

/-- The mutable `result`/`seen` pair threaded through `expand_profiles`
(`seen` is a Python `set`, modelled as a membership list). -/
structure ExpandState where
  result : List String
  seen : List String
  deriving DecidableEq, Repr

/-- Fuel measure for `expandGo`: group keys not yet on the expansion path. -/
def groupKeysOutside (groups : List (String × List String)) (path : List String) : Nat :=
  ((groups.map Prod.fst).filter (fun k => !path.contains k)).length

theorem length_filter_le_of_imp {α : Type} (l : List α) (p q : α → Bool)
    (h : ∀ x, p x = true → q x = true) :
    (l.filter p).length ≤ (l.filter q).length := by
  induction l with
  | nil => simp
  | cons a t ih =>
    rw [List.filter_cons, List.filter_cons]
    by_cases hp : p a = true
    · rw [hp, h a hp]; simpa using ih
    · rw [Bool.not_eq_true] at hp
      rw [hp]
      cases hq : q a <;> simp <;> omega

theorem length_filter_outside_append_lt (l : List String) (path : List String) (p : String)
    (hp : p ∈ l) (hnp : p ∉ path) :
    (l.filter (fun k => !(path ++ [p]).contains k)).length <
      (l.filter (fun k => !path.contains k)).length := by
  induction l with
  | nil => cases hp
  | cons a t ih =>
    have hmono := length_filter_le_of_imp t (fun k => !(path ++ [p]).contains k)
      (fun k => !path.contains k) (by intro x hx; simp at hx ⊢; tauto)
    rw [List.filter_cons, List.filter_cons]
    rcases List.mem_cons.mp hp with rfl | hmem
    · have h1 : (!(path ++ [p]).contains p) = false := by simp
      have h2 : (!path.contains p) = true := by simpa using hnp
      rw [h1, h2]
      simp only [Bool.false_eq_true, if_false, if_true, List.length_cons]
      omega
    · have step := ih hmem
      cases h1 : (!(path ++ [p]).contains a) <;> cases h2 : (!path.contains a) <;>
        simp only [Bool.false_eq_true, if_false, if_true, List.length_cons]
      · omega
      · omega
      · exfalso; simp at h1 h2; tauto
      · omega

theorem groupKeysOutside_append_lt (groups : List (String × List String))
    (path : List String) (p : String) (hmem : p ∈ groups.map Prod.fst)
    (hnot : p ∉ path) :
    groupKeysOutside groups (path ++ [p]) < groupKeysOutside groups path :=
  length_filter_outside_append_lt (groups.map Prod.fst) path p hmem hnot

theorem dlookup_mem_keys {α : Type} {d : List (String × α)} {p : String} {v : α}
    (hg : dlookup d p = some v) : p ∈ d.map Prod.fst := by
  induction d with
  | nil => cases hg
  | cons kv t ih =>
    rw [dlookup] at hg
    by_cases h : kv.1 = p
    · exact List.mem_cons.mpr (Or.inl h.symm)
    · exact List.mem_cons.mpr (Or.inr (ih (by simpa [h] using hg)))

/-- `expand_profiles`'s recursive worker.  The Python code is a recursive
`expand_single(profile, path)` whose body ends with a `for member in
groups[profile]` loop of recursive calls; here the loop is the list argument:
`expandGo groups ps path st` processes the profiles `ps` in order at expansion
path `path` (so `expand_single p path ≍ expandGo groups [p] path`).  A circular
reference raises `CircularProfileGroupError(path + [profile])`, modelled as
`.error (path ++ [p])`. -/
def expandGo (groups : List (String × List String)) :
    List String → List String → ExpandState → Except (List String) ExpandState
  | [], _, st => .ok st
  | p :: rest, path, st =>
    if hpath : path.contains p then .error (path ++ [p])
    else if st.seen.contains p then expandGo groups rest path st
    else
      let st1 : ExpandState := ⟨st.result ++ [p], st.seen ++ [p]⟩
      match hg : dlookup groups p with
      | some members => do
        let st2 ← expandGo groups members (path ++ [p]) st1
        expandGo groups rest path st2
      | none => expandGo groups rest path st1
termination_by ps path _ => (groupKeysOutside groups path, ps.length)
decreasing_by
  · exact Prod.Lex.right _ (by simp)
  · exact Prod.Lex.left _ _ (groupKeysOutside_append_lt groups path p
      (dlookup_mem_keys hg) (by simpa using hpath))
  · exact Prod.Lex.right _ (by simp)
  · exact Prod.Lex.right _ (by simp)

/-- `expand_profiles`: expand a requested profile list through the group
definitions, depth-first, duplicate-free, cycle-detecting. -/
def expand_profiles (requested : List String) (groups : List (String × List String)) :
    Except (List String) (List String) :=
  (expandGo groups requested [] ⟨[], []⟩).map ExpandState.result

/-! ## Merge engine (`merger.py`) -/

/-- Path concatenation `f"{path_prefix}.{key}" if path_prefix else key`. -/
def joinPath (pre key : String) : String :=
  if pre = "" then key else pre ++ "." ++ key

mutual
/-- `merger._track_sources`: record `source` for a value and all its
descendant leaves (dicts recurse; lists and scalars record at their own
path). -/
def track_sources (value : CValue) (path : String) (source : ConfigSource)
    (sources : List (String × ConfigSource)) : List (String × ConfigSource) :=
  match value with
  | .vdict d => track_sources_dict d path source sources
  | _ => dinsert sources path source

/-- The `for k, v in value.items()` loop of `_track_sources`. -/
def track_sources_dict (d : List (String × CValue)) (path : String) (source : ConfigSource)
    (sources : List (String × ConfigSource)) : List (String × ConfigSource) :=
  match d with
  | [] => sources
  | (k, v) :: rest =>
    track_sources_dict rest path source (track_sources v (joinPath path k) source sources)
end

/-- `merger._remove_sources_under_path`: drop every entry at `path` or under
`path ++ "."`. -/
def remove_sources_under_path (path : String) (sources : List (String × ConfigSource)) :
    List (String × ConfigSource) :=
  sources.filter (fun kv => !(kv.1 = path || str_startswith kv.1 (path ++ ".")))

mutual
/-- `merger.deep_merge`: fold the override dict into the base dict,
entry by entry (the Python `for key, override_value in override.items()`
loop is the recursion on `override`). -/
def deep_merge (base : List (String × CValue)) (override : List (String × CValue))
    (base_sources : List (String × ConfigSource)) (override_source : ConfigSource)
    (prefix_path : String) :
    List (String × CValue) × List (String × ConfigSource) :=
  match override with
  | [] => (base, base_sources)
  | (key, override_value) :: rest =>
    let step := deep_merge_entry base key override_value base_sources override_source prefix_path
    deep_merge step.1 rest step.2 override_source prefix_path

/-- One iteration of the `deep_merge` loop: insert a new key, recurse on two
dicts, or replace wholesale (purging stale provenance first). -/
def deep_merge_entry (base : List (String × CValue)) (key : String) (override_value : CValue)
    (base_sources : List (String × ConfigSource)) (override_source : ConfigSource)
    (prefix_path : String) :
    List (String × CValue) × List (String × ConfigSource) :=
  let current_path := joinPath prefix_path key
  match dlookup base key, override_value with
  | none, _ =>
    (dinsert base key override_value,
     track_sources override_value current_path override_source base_sources)
  | some (.vdict bd), .vdict od =>
    let ms := deep_merge bd od base_sources override_source current_path
    (dinsert base key (.vdict ms.1), ms.2)
  | some _, _ =>
    (dinsert base key override_value,
     track_sources override_value current_path override_source
       (remove_sources_under_path current_path base_sources))
end

/-- The `for doc in documents[1:]` loop of `merger.merge_configs`. -/
def merge_configs_fold (docs : List ConfigDocument)
    (acc : List (String × CValue) × List (String × ConfigSource)) :
    List (String × CValue) × List (String × ConfigSource) :=
  match docs with
  | [] => acc
  | doc :: rest =>
    merge_configs_fold rest
      (deep_merge acc.1 doc.content acc.2 ⟨doc.source_file, none⟩ "")

/-- `merger.merge_configs`: merge documents in order, later documents
overriding earlier ones, building the source map from scratch. -/
def merge_configs (documents : List ConfigDocument) :
    List (String × CValue) × List (String × ConfigSource) :=
  match documents with
  | [] => ([], [])
  | first :: rest =>
    let sources := track_sources (.vdict first.content) "" ⟨first.source_file, none⟩ []
    merge_configs_fold rest (first.content, sources)

/-! ## Environment variables (`env_vars.py`) -/

/-- `property_path_to_env_vars`: candidate environment-variable names for a
property path — the standard form (dots to underscores, upper-cased) first,
then, when different, the dash-converted form. -/
def property_path_to_env_vars (property_path : String) : List String :=
  let standard := pyUpper (pyReplace property_path "." "_")
  let with_dashes := pyUpper (pyReplace (pyReplace property_path "-" "_") "." "_")
  if with_dashes ≠ standard then [standard, with_dashes] else [standard]

/-- The `for name in possible_names` loop of `get_env_value`: per candidate
name, the provided env vars are consulted before the system environment. -/
def get_env_value_names : List String → List (String × String) → List (String × String) →
    Bool → Option String
  | [], _, _, _ => none
  | name :: rest, env_vars, sys_env, system_env =>
    match dlookup env_vars name with
    | some v => some v
    | none =>
      if system_env then
        match dlookup sys_env name with
        | some v => some v
        | none => get_env_value_names rest env_vars sys_env system_env
      else get_env_value_names rest env_vars sys_env system_env

/-- `get_env_value`: value for a property path from environment variables
(`sys_env` models `os.environ`). -/
def get_env_value (property_path : String) (env_vars : List (String × String))
    (sys_env : List (String × String)) (system_env : Bool) : Option String :=
  get_env_value_names (property_path_to_env_vars property_path) env_vars sys_env system_env

/-- `placeholders._check_env_var_exists`. -/
def check_env_var_exists (key_path : String) (env_vars : List (String × String)) : Bool :=
  (property_path_to_env_vars key_path).any (fun name => (dlookup env_vars name).isSome)

/-! ## Cloud Foundry metadata (`vcap_services.py`) -/

/-- `is_vcap_placeholder`: does the property path live in the reserved
`vcap.services.` / `vcap.application.` namespace? -/
def is_vcap_placeholder (placeholder : String) : Bool :=
  str_startswith placeholder "vcap.services." || str_startswith placeholder "vcap.application."

/-- `is_vcap_available`: is either VCAP environment variable set (and
nonempty)?  `sys_env` models `os.environ`. -/
def is_vcap_available (sys_env : List (String × String)) : Bool :=
  pyTruthyStr (dlookup sys_env "VCAP_SERVICES") || pyTruthyStr (dlookup sys_env "VCAP_APPLICATION")

/-- `parse_vcap_services`: for absent, empty, or malformed JSON the Python
code returns `{}`.  Decoding a well-formed JSON payload is exercised by no
claim and is not modelled (a provided payload is treated as unparseable,
which also yields `{}`). -/
def parse_vcap_services (vcap_json : Option String) (sys_env : List (String × String)) :
    List (String × CValue) :=
  match vcap_json with
  | none =>
    match dlookup sys_env "VCAP_SERVICES" with
    | none => []
    | some _ => []
  | some _ => []

/-- `parse_vcap_application`: same modelling note as `parse_vcap_services`. -/
def parse_vcap_application (vcap_json : Option String) (sys_env : List (String × String)) :
    List (String × CValue) :=
  match vcap_json with
  | none =>
    match dlookup sys_env "VCAP_APPLICATION" with
    | none => []
    | some _ => []
  | some _ => []

/-- Python `d.get(k, {})` on a `CValue` dict. -/
def pyDictGet (v : CValue) (k : String) : CValue :=
  match v with
  | .vdict d => (dlookup d k).getD (.vdict [])
  | _ => .vnull

/-- `get_vcap_config`: combine the parsed `VCAP_SERVICES` and
`VCAP_APPLICATION` structures under one `vcap` key. -/
def get_vcap_config (vcap_services_json vcap_application_json : Option String)
    (sys_env : List (String × String)) : List (String × CValue) :=
  let services := parse_vcap_services vcap_services_json sys_env
  let application := parse_vcap_application vcap_application_json sys_env
  if services.isEmpty && application.isEmpty then []
  else
    let inner0 : List (String × CValue) := []
    let inner1 := if !services.isEmpty then
        dinsert inner0 "services" (pyDictGet (pyDictGet (.vdict services) "vcap") "services")
      else inner0
    let inner2 := if !application.isEmpty then
        dinsert inner1 "application" (pyDictGet (pyDictGet (.vdict application) "vcap") "application")
      else inner1
    [("vcap", .vdict inner2)]

/-! ## Placeholder resolver (`placeholders.py`) -/

mutual
/-- Python `str(value)` for configuration values (`repr` for non-string
values nested in containers; `repr` of a string is approximated with
single-quote quoting). -/
def pyStr : CValue → String
  | .vstr s => s
  | v => pyRepr v

/-- Python `repr(value)`. -/
def pyRepr : CValue → String
  | .vstr s => String.singleton (Char.ofNat 39) ++ s ++ String.singleton (Char.ofNat 39)
  | .vint n => toString n
  | .vbool b => if b then "True" else "False"
  | .vnull => "None"
  | .vlist items => "[" ++ pyReprListItems items ++ "]"
  | .vdict entries => "\x7b" ++ pyReprDictItems entries ++ "\x7d"

/-- Comma-joined `repr`s of list items. -/
def pyReprListItems : List CValue → String
  | [] => ""
  | [v] => pyRepr v
  | v :: rest => pyRepr v ++ ", " ++ pyReprListItems rest

/-- Comma-joined `repr`s of dict items. -/
def pyReprDictItems : List (String × CValue) → String
  | [] => ""
  | [(k, v)] => pyRepr (.vstr k) ++ ": " ++ pyRepr v
  | (k, v) :: rest => pyRepr (.vstr k) ++ ": " ++ pyRepr v ++ ", " ++ pyReprDictItems rest
end

/-- A match of `PLACEHOLDER_PATTERN` at the head of the character list:
literal `${`, a nonempty key of characters other than `\x7b` `:`, an optional
`:`-prefixed default of characters other than `\x7d`, then `\x7d`.  Returns
(key, default, whole matched text, remaining characters). -/
def matchPlaceholder : List Char → Option (String × Option String × String × List Char)
  | '$' :: '{' :: rest =>
    let key := rest.takeWhile (fun c => !(c = '}' || c = ':'))
    if key.isEmpty then none
    else
      match rest.dropWhile (fun c => !(c = '}' || c = ':')) with
      | '}' :: after =>
        some (String.mk key, none, String.mk ('$' :: '{' :: (key ++ ['}'])), after)
      | ':' :: r2 =>
        let dflt := r2.takeWhile (fun c => !(c = '}'))
        (match r2.dropWhile (fun c => !(c = '}')) with
         | '}' :: after =>
           some (String.mk key, some (String.mk dflt),
             String.mk ('$' :: '{' :: (key ++ ':' :: (dflt ++ ['}']))), after)
         | _ => none)
      | _ => none
  | _ => none

/-- `PLACEHOLDER_PATTERN.finditer`: all non-overlapping matches, scanning
left to right (on failure the scan advances one character).  One character
is consumed per fuel step. -/
def findPlaceholdersGo : Nat → List Char → List (String × Option String × String)
  | _, [] => []
  | 0, _ => []
  | fuel + 1, c :: rest =>
    match matchPlaceholder (c :: rest) with
    | some (k, d, g0, after) => (k, d, g0) :: findPlaceholdersGo fuel after
    | none => findPlaceholdersGo fuel rest

/-- All placeholder matches in a string: (key, default, matched text). -/
def findPlaceholders (s : String) : List (String × Option String × String) :=
  findPlaceholdersGo (s.data.length + 1) s.data

/-- `PLACEHOLDER_PATTERN.sub(replace_match, value)`: replace every match by
`repl key default group0`, accumulating the `changed` flag that
`replace_match` sets. -/
def subPlaceholdersGo (repl : String → Option String → String → String × Bool) :
    Nat → List Char → List Char × Bool
  | _, [] => ([], false)
  | 0, s => (s, false)
  | fuel + 1, c :: rest =>
    match matchPlaceholder (c :: rest) with
    | some (k, d, g0, after) =>
      let rc := repl k d g0
      let tail_rc := subPlaceholdersGo repl fuel after
      (rc.1.data ++ tail_rc.1, rc.2 || tail_rc.2)
    | none =>
      let tail_rc := subPlaceholdersGo repl fuel rest
      (c :: tail_rc.1, tail_rc.2)

/-- `get_nested_value`'s traversal loop over the dot-separated parts. -/
def get_nested_value_go : List String → CValue → Option CValue
  | [], current => some current
  | part :: rest, current =>
    match current with
    | .vdict d =>
      match dlookup d part with
      | none => none
      | some v => get_nested_value_go rest v
    | _ => none

/-- `placeholders.get_nested_value`: value at a dot-notation path.  The
Python function returns the Python object, so a stored `None` is
indistinguishable from an absent key; the final `vnull` collapses to
`none` accordingly. -/
def get_nested_value (config : List (String × CValue)) (key_path : String) : Option CValue :=
  match get_nested_value_go (pySplit key_path ".") (.vdict config) with
  | some .vnull => none
  | r => r

/-- The `replace_match` closure of `resolve_single_value`: resolve one
placeholder occurrence, trying (1) environment variables (the caller-supplied
mapping merged with the system environment by candidate name), (2) VCAP
metadata when loaded and the key is in its namespace, (3) the configuration
tree, (4) the literal default; otherwise the matched text `group0` is
returned unchanged (and the `changed` flag stays false). -/
def replace_match (key_path : String) (default_value : Option String) (group0 : String)
    (config : List (String × CValue)) (env_vars : Option (List (String × String)))
    (use_system_env : Bool) (vcap_config : List (String × CValue))
    (sys_env : List (String × String)) : String × Bool :=
  match get_env_value key_path (env_vars.getD []) sys_env use_system_env with
  | some env_value => (env_value, true)
  | none =>
    let config_step : String × Bool :=
      match get_nested_value config key_path with
      | some resolved => (pyStr resolved, true)
      | none =>
        match default_value with
        | some d => (d, true)
        | none => (group0, false)
    if !vcap_config.isEmpty && is_vcap_placeholder key_path then
      match get_nested_value vcap_config key_path with
      | some vcap_value => (pyStr vcap_value, true)
      | none => config_step
    else config_step

/-- `resolve_single_value`: substitute every placeholder in one string via
`replace_match`. -/
def resolve_single_value (value : String) (config : List (String × CValue))
    (env_vars : Option (List (String × String))) (use_system_env : Bool)
    (vcap_config : List (String × CValue)) (sys_env : List (String × String)) :
    String × Bool :=
  if !containsPlaceholderStart value.data then (value, false)
  else
    let rc := subPlaceholdersGo
      (fun key_path default_value group0 =>
        replace_match key_path default_value group0 config env_vars use_system_env
          vcap_config sys_env)
      (value.data.length + 1) value.data
    (String.mk rc.1, rc.2)

mutual
/-- `placeholders._resolve_pass` over a dict: one substitution pass,
returning the new dict, the `changed` flag, and (always empty) warnings. -/
def resolve_pass (config : List (String × CValue)) (root_config : List (String × CValue))
    (env_vars : Option (List (String × String))) (use_system_env : Bool)
    (vcap_config : List (String × CValue)) (sys_env : List (String × String)) :
    List (String × CValue) × Bool × List String :=
  match config with
  | [] => ([], false, [])
  | (key, value) :: rest =>
    let vr := resolve_pass_value value root_config env_vars use_system_env vcap_config sys_env
    let rr := resolve_pass rest root_config env_vars use_system_env vcap_config sys_env
    ((key, vr.1) :: rr.1, (vr.2.1 || rr.2.1), vr.2.2 ++ rr.2.2)
termination_by structural config

/-- One value inside `_resolve_pass`: dicts recurse, lists are walked,
strings are substituted, anything else is kept. -/
def resolve_pass_value (value : CValue) (root_config : List (String × CValue))
    (env_vars : Option (List (String × String))) (use_system_env : Bool)
    (vcap_config : List (String × CValue)) (sys_env : List (String × String)) :
    CValue × Bool × List String :=
  match value with
  | .vdict d =>
    let dr := resolve_pass d root_config env_vars use_system_env vcap_config sys_env
    (.vdict dr.1, dr.2)
  | .vlist items =>
    let lr := resolve_pass_list items root_config env_vars use_system_env vcap_config sys_env
    (.vlist lr.1, lr.2)
  | .vstr s =>
    let sr := resolve_single_value s root_config env_vars use_system_env vcap_config sys_env
    (.vstr sr.1, sr.2, [])
  | other => (other, false, [])
termination_by structural value

/-- The `for item in value` loop of `_resolve_pass` for list values. -/
def resolve_pass_list (items : List CValue) (root_config : List (String × CValue))
    (env_vars : Option (List (String × String))) (use_system_env : Bool)
    (vcap_config : List (String × CValue)) (sys_env : List (String × String)) :
    List CValue × Bool × List String :=
  match items with
  | [] => ([], false, [])
  | item :: rest =>
    let ir := resolve_pass_item item root_config env_vars use_system_env vcap_config sys_env
    let rr := resolve_pass_list rest root_config env_vars use_system_env vcap_config sys_env
    (ir.1 :: rr.1, (ir.2.1 || rr.2.1), ir.2.2 ++ rr.2.2)
termination_by structural items

/-- One list item of `_resolve_pass`: string items are substituted, dict
items recurse, all else (including nested lists) is kept unchanged. -/
def resolve_pass_item (item : CValue) (root_config : List (String × CValue))
    (env_vars : Option (List (String × String))) (use_system_env : Bool)
    (vcap_config : List (String × CValue)) (sys_env : List (String × String)) :
    CValue × Bool × List String :=
  match item with
  | .vstr s =>
    let sr := resolve_single_value s root_config env_vars use_system_env vcap_config sys_env
    (.vstr sr.1, sr.2, [])
  | .vdict d =>
    let dr := resolve_pass d root_config env_vars use_system_env vcap_config sys_env
    (.vdict dr.1, dr.2)
  | other => (other, false, [])
termination_by structural item
end

/-- The warning text of `_find_placeholders_without_defaults.check_value`. -/
def withoutDefaultWarning (path key_path : String) : String :=
  "Placeholder without default at " ++ path ++ ": $\x7b" ++ key_path ++
    "\x7d - This placeholder has no default value and does not reference " ++
    "an existing configuration property. It will only resolve if " ++
    "provided via environment variable."

/-- `check_value` of `_find_placeholders_without_defaults`: warn for each
placeholder with no default that matches neither the configuration tree nor
(when provided) the caller-supplied env vars. -/
def check_value_without_defaults (value : String) (path : String)
    (root_config : List (String × CValue)) (env_vars : Option (List (String × String))) :
    List String :=
  if !containsPlaceholderStart value.data then []
  else
    (findPlaceholders value).filterMap (fun m =>
      if m.2.1.isSome then none
      else if (get_nested_value root_config m.1).isSome then none
      else if (match env_vars with
               | some e => !e.isEmpty && check_env_var_exists m.1 e
               | none => false) then none
      else some (withoutDefaultWarning path m.1))

mutual
/-- `scan_config` of `_find_placeholders_without_defaults`. -/
def find_without_defaults_dict (cfg : List (String × CValue)) (pre : String)
    (root_config : List (String × CValue)) (env_vars : Option (List (String × String))) :
    List String :=
  match cfg with
  | [] => []
  | (key, value) :: rest =>
    find_without_defaults_value value (joinPath pre key) root_config env_vars ++
      find_without_defaults_dict rest pre root_config env_vars
termination_by structural cfg

/-- One value of the scan: dicts recurse, lists are walked, string leaves
are checked, all other leaves are skipped. -/
def find_without_defaults_value (value : CValue) (current_path : String)
    (root_config : List (String × CValue)) (env_vars : Option (List (String × String))) :
    List String :=
  match value with
  | .vdict d => find_without_defaults_dict d current_path root_config env_vars
  | .vlist items => find_without_defaults_list items current_path 0 root_config env_vars
  | .vstr sv => check_value_without_defaults sv current_path root_config env_vars
  | _ => []
termination_by structural value

/-- The `for i, item in enumerate(value)` loop of the scan; item paths are
`path[i]`.  Dict items recurse, string items are checked, all else
(including nested lists) is skipped. -/
def find_without_defaults_list (items : List CValue) (current_path : String) (i : Nat)
    (root_config : List (String × CValue)) (env_vars : Option (List (String × String))) :
    List String :=
  match items with
  | [] => []
  | item :: rest =>
    find_without_defaults_item item (current_path ++ "[" ++ toString i ++ "]") root_config env_vars
      ++ find_without_defaults_list rest current_path (i + 1) root_config env_vars
termination_by structural items

/-- One list item of the scan. -/
def find_without_defaults_item (item : CValue) (item_path : String)
    (root_config : List (String × CValue)) (env_vars : Option (List (String × String))) :
    List String :=
  match item with
  | .vdict d => find_without_defaults_dict d item_path root_config env_vars
  | .vstr sv => check_value_without_defaults sv item_path root_config env_vars
  | _ => []
termination_by structural item
end

/-- `_find_placeholders_without_defaults` (the `use_system_env` argument is
accepted and — as in the Python code — not consulted). -/
def find_placeholders_without_defaults (config root_config : List (String × CValue))
    (env_vars : Option (List (String × String))) (use_system_env : Bool) : List String :=
  let _ := use_system_env
  find_without_defaults_dict config "" root_config env_vars

/-- `scan_value` of `_check_vcap_placeholder_warnings`. -/
def vcap_refs_value (sv : String) (path : String) : List (String × String) :=
  if containsPlaceholderStart sv.data then
    (findPlaceholders sv).filterMap (fun m =>
      if is_vcap_placeholder m.1 then some (path, m.1) else none)
  else []

mutual
/-- `scan_config` of `_check_vcap_placeholder_warnings`: collect
`(path, key)` for every placeholder whose key is in the VCAP namespace. -/
def vcap_refs_dict (cfg : List (String × CValue)) (pre : String) : List (String × String) :=
  match cfg with
  | [] => []
  | (key, value) :: rest =>
    vcap_refs_valuecase value (joinPath pre key) ++ vcap_refs_dict rest pre

/-- One value of the VCAP scan. -/
def vcap_refs_valuecase (value : CValue) (current_path : String) : List (String × String) :=
  match value with
  | .vdict d => vcap_refs_dict d current_path
  | .vlist items => vcap_refs_list items current_path 0
  | .vstr sv => vcap_refs_value sv current_path
  | _ => []

/-- List items of the VCAP scan: dict items recurse, all others go through
`scan_value` (which only inspects strings). -/
def vcap_refs_list (items : List CValue) (current_path : String) (i : Nat) :
    List (String × String) :=
  match items with
  | [] => []
  | item :: rest =>
    vcap_refs_itemcase item (current_path ++ "[" ++ toString i ++ "]") ++
      vcap_refs_list rest current_path (i + 1)

/-- One list item of the VCAP scan. -/
def vcap_refs_itemcase (item : CValue) (item_path : String) : List (String × String) :=
  match item with
  | .vdict d => vcap_refs_dict d item_path
  | .vstr sv => vcap_refs_value sv item_path
  | _ => []
end

/-- Example lines `  - path: $\x7bkey\x7d` of the VCAP warnings. -/
def vcapExampleLine (pr : String × String) : String :=
  "  - " ++ pr.1 ++ ": $\x7b" ++ pr.2 ++ "\x7d"

/-- The `(and N more)` suffix of the VCAP warnings. -/
def vcapExtra (n : Nat) : String :=
  if n > 3 then " (and " ++ toString (n - 3) ++ " more)" else ""

/-- `_check_vcap_placeholder_warnings`: when VCAP is unavailable, one warning
for `vcap.services.*` references and one for `vcap.application.*`
references, each with up to three example lines. -/
def check_vcap_placeholder_warnings (config : List (String × CValue)) : List String :=
  let vcap_refs := vcap_refs_dict config ""
  if vcap_refs.isEmpty then []
  else
    let service_refs := vcap_refs.filter (fun pr => str_startswith pr.2 "vcap.services.")
    let app_refs := vcap_refs.filter (fun pr => str_startswith pr.2 "vcap.application.")
    let service_warnings :=
      if !service_refs.isEmpty then
        ["Cloud Foundry VCAP_SERVICES referenced but not available. " ++
         "This typically indicates the configuration is designed for Cloud Foundry " ++
         "and may not work in local development without providing defaults or " ++
         "setting the VCAP_SERVICES environment variable.\n" ++
         String.intercalate "\n" ((service_refs.take 3).map vcapExampleLine) ++
         vcapExtra service_refs.length]
      else []
    let app_warnings :=
      if !app_refs.isEmpty then
        ["Cloud Foundry VCAP_APPLICATION referenced but not available. " ++
         "Application metadata placeholders will not resolve in local development.\n" ++
         String.intercalate "\n" ((app_refs.take 3).map vcapExampleLine) ++
         vcapExtra app_refs.length]
      else []
    service_warnings ++ app_warnings

mutual
/-- `_find_unresolved_placeholders` over a dict: every remaining
`(path, matched text)` pair. -/
def find_unresolved_dict (config : List (String × CValue)) (pre : String) :
    List (String × String) :=
  match config with
  | [] => []
  | (key, value) :: rest =>
    find_unresolved_value value (joinPath pre key) ++ find_unresolved_dict rest pre

/-- One value of `_find_unresolved_placeholders`. -/
def find_unresolved_value (value : CValue) (current_path : String) : List (String × String) :=
  match value with
  | .vdict d => find_unresolved_dict d current_path
  | .vlist items => find_unresolved_list items current_path 0
  | .vstr sv => (findPlaceholders sv).map (fun m => (current_path, m.2.2))
  | _ => []

/-- List items of `_find_unresolved_placeholders`: strings are scanned,
dict items recurse, all else is skipped. -/
def find_unresolved_list (items : List CValue) (current_path : String) (i : Nat) :
    List (String × String) :=
  match items with
  | [] => []
  | item :: rest =>
    find_unresolved_item item (current_path ++ "[" ++ toString i ++ "]") ++
      find_unresolved_list rest current_path (i + 1)

/-- One list item of `_find_unresolved_placeholders`. -/
def find_unresolved_item (item : CValue) (item_path : String) : List (String × String) :=
  match item with
  | .vstr sv => (findPlaceholders sv).map (fun m => (item_path, m.2.2))
  | .vdict d => find_unresolved_dict d item_path
  | _ => []
end

mutual
/-- `placeholders._deep_copy_config` (structure-preserving copy; values are
immutable here, so the copy is structurally the identity, mirrored for
fidelity). -/
def deep_copy_config : List (String × CValue) → List (String × CValue)
  | [] => []
  | (key, value) :: rest => (key, deep_copy_value value) :: deep_copy_config rest

/-- One value of `_deep_copy_config`: dicts are copied recursively, lists
item-wise (dict items recursively), everything else is shared. -/
def deep_copy_value : CValue → CValue
  | .vdict d => .vdict (deep_copy_config d)
  | .vlist items => .vlist (deep_copy_list items)
  | other => other

/-- List items of `_deep_copy_config`. -/
def deep_copy_list : List CValue → List CValue
  | [] => []
  | .vdict d :: rest => .vdict (deep_copy_config d) :: deep_copy_list rest
  | item :: rest => item :: deep_copy_list rest
end

/-- The `for _ in range(max_iterations)` loop of `resolve_placeholders`:
run substitution passes until nothing changes or the iteration cap is hit,
accumulating pass warnings. -/
def resolve_loop (iterations : Nat) (cfg : List (String × CValue))
    (env_vars : Option (List (String × String))) (use_system_env : Bool)
    (vcap_config : List (String × CValue)) (sys_env : List (String × String)) :
    List (String × CValue) × List String :=
  match iterations with
  | 0 => (cfg, [])
  | n + 1 =>
    let pr := resolve_pass cfg cfg env_vars use_system_env vcap_config sys_env
    if pr.2.1 then
      let next := resolve_loop n pr.1 env_vars use_system_env vcap_config sys_env
      (next.1, pr.2.2 ++ next.2)
    else (pr.1, pr.2.2)

/-- `resolve_placeholders`: deep-copy the tree, collect
placeholder-without-default warnings, load the VCAP configuration, warn on
VCAP references when VCAP is unavailable, iterate substitution passes (cap
`max_iterations`), then report every remaining placeholder as unresolved. -/
def resolve_placeholders (config : List (String × CValue)) (max_iterations : Nat)
    (env_vars : Option (List (String × String))) (use_system_env : Bool)
    (vcap_services_json vcap_application_json : Option String)
    (sys_env : List (String × String)) :
    List (String × CValue) × List String :=
  let result := deep_copy_config config
  let no_default_warnings := find_placeholders_without_defaults result result env_vars use_system_env
  let vcap_config :=
    if use_system_env || pyTruthyStr vcap_services_json || pyTruthyStr vcap_application_json then
      get_vcap_config vcap_services_json vcap_application_json sys_env
    else []
  let vcap_available := is_vcap_available sys_env || pyTruthyStr vcap_services_json ||
    pyTruthyStr vcap_application_json
  let vcap_warnings := if !vcap_available then check_vcap_placeholder_warnings result else []
  let lr := resolve_loop max_iterations result env_vars use_system_env vcap_config sys_env
  let unresolved := (find_unresolved_dict lr.1 "").map
    (fun pr => "Unresolved placeholder at " ++ pr.1 ++ ": " ++ pr.2)
  (lr.1, no_default_warnings ++ vcap_warnings ++ lr.2 ++ unresolved)

/-! ## Orchestrator call wiring (`resolver.py`) -/

/-- The keyword parameters accepted by `placeholders.resolve_placeholders`
(its Python signature). -/
def resolve_placeholders_param_names : List String :=
  ["config", "max_iterations", "env_vars", "use_system_env",
   "vcap_services_json", "vcap_application_json"]

/-- The keyword arguments that `resolver.resolve_profiles` passes in its call
to `resolve_placeholders` (the merged config is passed positionally). -/
def resolve_profiles_placeholder_call_kwargs : List String :=
  ["env_vars", "use_system_env", "vcap_services_json", "vcap_application_json",
   "ignore_vcap_warnings"]

/-- Python call binding: a call returns normally only if every keyword
argument names a parameter of the callee; otherwise the call raises
`TypeError` before the function body runs. -/
def python_kwargs_accepted (kwargs params : List String) : Bool :=
  kwargs.all (fun k => params.contains k)

/-! ## Theorems -/

/-- Claim C1: `resolver.resolve_profiles` always returns a `ResolverResult`
carrying the computed configuration and diagnostics, with advisory issues
never preventing a result.  This fails: the call to `resolve_placeholders`
at `resolver.py:202-209` passes the keyword argument `ignore_vcap_warnings`,
which is not a parameter of `placeholders.resolve_placeholders`
(`placeholders.py:12-19`), so under Python call-binding semantics every
invocation of `resolve_profiles` raises `TypeError` at the placeholder step
and never assembles a `ResolverResult`. -/
theorem resolve_profiles_placeholder_call_kwarg_rejected :
    python_kwargs_accepted resolve_profiles_placeholder_call_kwargs
      resolve_placeholders_param_names = false := by decide

/-- Claim C3: the merged-tree lookup used by the placeholder resolver is
claimed to support `[index]` sequence indexing.  It does not:
`get_nested_value` splits only on dots and descends only into dicts, so
`items[0]` is looked up as a literal dict key and misses, and
`${items[0]}` is left unsubstituted (the repository's own tests
`test_array_index_simple` etc. expect indexing to work). -/
theorem get_nested_value_no_index_support :
    get_nested_value [("items", .vlist [.vstr "x", .vstr "y"])] "items[0]" = none ∧
    resolve_single_value "${items[0]}" [("items", .vlist [.vstr "x", .vstr "y"])]
      none false [] [] = ("${items[0]}", false) :=
  ⟨rfl, rfl⟩

/-- Claim C4: on the self-referential input `{a: "${a}"}`,
`resolve_placeholders` terminates (the iteration cap stops the loop) and
leaves the literal text unchanged, but the only warning it emits is the
plain `Unresolved placeholder` one — no warning distinct from it identifies
the cycle, although the repository's own tests
(`TestCircularReferenceDetection`) require a `Circular` warning. -/
theorem resolve_placeholders_self_reference_no_circular_warning :
    resolve_placeholders [("a", .vstr "${a}")] 10 none false none none [] =
      ([("a", .vstr "${a}")], ["Unresolved placeholder at a: ${a}"]) := rfl

/-- Claim C7: after every merge step each leaf of the merged tree is claimed
to have exactly one `SourceMap` entry.  This fails when a mapping key
contains a dot: overriding key `a` purges, by string prefix, the provenance
entry of the unrelated sibling key `a.b`, leaving the surviving leaf
`a.b = 1` with no entry (while the claim's type-change purge behaviour
itself, third conjunct group, does hold on the spec's own example). -/
theorem merge_sources_dotted_key_collision :
    (merge_configs
      [⟨[("a.b", .vint 1), ("a", .vdict [("c", .vint 2)])], "first.yml", none, 0⟩,
       ⟨[("a", .vint 5)], "second.yml", none, 0⟩]).1 =
      [("a.b", .vint 1), ("a", .vint 5)] ∧
    dlookup (merge_configs
      [⟨[("a.b", .vint 1), ("a", .vdict [("c", .vint 2)])], "first.yml", none, 0⟩,
       ⟨[("a", .vint 5)], "second.yml", none, 0⟩]).2 "a.b" = none ∧
    dlookup (merge_configs
      [⟨[("a.b", .vint 1), ("a", .vdict [("c", .vint 2)])], "first.yml", none, 0⟩,
       ⟨[("a", .vint 5)], "second.yml", none, 0⟩]).2 "a" = some ⟨"second.yml", none⟩ ∧
    (merge_configs
      [⟨[("config", .vstr "simple")], "base.yml", none, 0⟩,
       ⟨[("config", .vdict [("nested", .vstr "value")])], "override.yml", none, 0⟩]).2 =
      [("config.nested", ⟨"override.yml", none⟩)] :=
  ⟨rfl, by decide, by decide, by decide⟩

/-- Claim C10: `expand_profiles` raises `CircularProfileGroupError` with the
full cycle path when a profile reappears in its own ancestor expansion path
(`["a","b","a"]` and `["a","a"]` on the two spec examples), while a profile
already emitted by an earlier, completed expansion is merely skipped. -/
theorem expand_profiles_cycle_errors :
    expand_profiles ["a"] [("a", ["b"]), ("b", ["a"])] = .error ["a", "b", "a"] ∧
    expand_profiles ["a"] [("a", ["a"])] = .error ["a", "a"] ∧
    expand_profiles ["a", "b"] [("a", ["c"]), ("b", ["c"])] = .ok ["a", "c", "b"] := by
  refine ⟨?_, ?_, ?_⟩ <;> simp [expand_profiles, expandGo, dlookup, Except.map, Except.bind, bind]

/-- Claim C2 counterexample: for the malformed activation expression
`"prod &"` (not "simple", so it reaches the parser), `matches_profiles` does
not return the claimed never-active `ok false` — it raises
(`ProfileExpressionError`), and the error propagates out of document
filtering, aborting the run with no warning recorded. -/
theorem matches_profiles_malformed_expression_raises :
    is_simple_profile "prod &" = false ∧
    except_is_ok (matches_profiles (some "prod &") ["prod"]) = false ∧
    except_is_ok (get_applicable_documents
      [⟨[], "application.yml", some "prod &", 0⟩] ["prod"]) = false := by
  refine ⟨by decide, by decide, by decide⟩

/-- Claim C2 (amended): when a document's activation-expression string fails
to parse, the `ProfileExpressionError` propagates out of activation matching
and out of document filtering — `get_applicable_documents` returns normally
exactly when every document's activation check does — so the resolution run
aborts on the malformed expression instead of treating the document as
never-active and warning. -/
theorem get_applicable_documents_ok_iff_matches_ok :
    ∀ (docs : List ConfigDocument) (active : List String),
      except_is_ok (get_applicable_documents docs active) =
        docs.all (fun d => except_is_ok (matches_profiles d.activation_profile active)) := by
  intro docs active
  induction docs with
  | nil => rfl
  | cons d rest ih =>
    rw [get_applicable_documents, List.all_cons]
    cases h : matches_profiles d.activation_profile active with
    | error e => simp [bind, Except.bind, except_is_ok, h]
    | ok b =>
      cases hr : get_applicable_documents rest active with
      | error e2 =>
        rw [hr] at ih
        simp only [bind, Except.bind, except_is_ok] at ih ⊢
        rw [← ih]
        simp
      | ok l =>
        rw [hr] at ih
        simp only [bind, Except.bind, except_is_ok] at ih ⊢
        rw [← ih]
        simp

/-- Instantiation of the Claim C2 theorem at a concrete document list. -/
theorem get_applicable_documents_ok_iff_matches_ok_witness :
    except_is_ok (get_applicable_documents
        [⟨[], "application.yml", some "!prod", 0⟩] ["dev"]) =
      [(⟨[], "application.yml", some "!prod", 0⟩ : ConfigDocument)].all
        (fun d => except_is_ok (matches_profiles d.activation_profile ["dev"])) :=
  get_applicable_documents_ok_iff_matches_ok [⟨[], "application.yml", some "!prod", 0⟩] ["dev"]

/-- Claim C5 counterexample: the helper classifies `" prod "` as simple
(it strips before checking for operator characters), but the fast path
tests membership of the unstripped string — `.ok false` against
`["prod"]` — while parsing (which strips) evaluates to `.ok true`. -/
theorem is_simple_fast_path_whitespace_counterexample :
    is_simple_profile " prod " = true ∧
    matches_profiles (some " prod ") ["prod"] = .ok false ∧
    evaluate_profile_expression " prod " ["prod"] = .ok true :=
  ⟨by decide, rfl, rfl⟩

theorem name_char_not_whitespace {c : Char} (h : isProfileNameChar c = true) :
    c.isWhitespace = false := by
  cases hw : c.isWhitespace
  · rfl
  · exfalso
    have hd : ((c = ' ' ∨ c = '\t') ∨ c = '\x0d') ∨ c = '\n' := by
      simpa [Char.isWhitespace] using hw
    rcases hd with ((rfl | rfl) | rfl) | rfl <;> exact absurd h (by decide)

theorem name_char_ne_bang {c : Char} (h : isProfileNameChar c = true) : ¬(c = '!') :=
  fun e => absurd (e ▸ h) (by decide)

theorem name_char_ne_amp {c : Char} (h : isProfileNameChar c = true) : ¬(c = '&') :=
  fun e => absurd (e ▸ h) (by decide)

theorem name_char_ne_pipe {c : Char} (h : isProfileNameChar c = true) : ¬(c = '|') :=
  fun e => absurd (e ▸ h) (by decide)

theorem name_char_ne_lparen {c : Char} (h : isProfileNameChar c = true) : ¬(c = '(') :=
  fun e => absurd (e ▸ h) (by decide)

theorem name_char_ne_rparen {c : Char} (h : isProfileNameChar c = true) : ¬(c = ')') :=
  fun e => absurd (e ▸ h) (by decide)

theorem takeWhile_all_true {α : Type} (p : α → Bool) (l : List α)
    (h : ∀ x ∈ l, p x = true) : l.takeWhile p = l := by
  induction l with
  | nil => rfl
  | cons a t ih =>
    rw [List.takeWhile_cons, h a (List.mem_cons_self a t)]
    exact congrArg (a :: ·) (ih (fun x hx => h x (List.mem_cons_of_mem a hx)))

theorem dropWhile_all_true {α : Type} (p : α → Bool) (l : List α)
    (h : ∀ x ∈ l, p x = true) : l.dropWhile p = [] := by
  induction l with
  | nil => rfl
  | cons a t ih =>
    rw [List.dropWhile_cons, h a (List.mem_cons_self a t)]
    exact if_pos rfl ▸ ih (fun x hx => h x (List.mem_cons_of_mem a hx))

theorem dropWhile_all_false {α : Type} (p : α → Bool) (l : List α)
    (h : ∀ x ∈ l, p x = false) : l.dropWhile p = l := by
  cases l with
  | nil => rfl
  | cons a t => rw [List.dropWhile_cons, h a (List.mem_cons_self a t)]; simp

theorem pyStrip_eq_self (s : String) (h : ∀ c ∈ s.data, c.isWhitespace = false) :
    pyStrip s = s := by
  unfold pyStrip
  rw [dropWhile_all_false _ _ h]
  rw [dropWhile_all_false _ _ (fun c hc => h c (List.mem_reverse.mp hc))]
  rw [List.reverse_reverse]

theorem lexTokens_name_run (c : Char) (rest : List Char) (p : Nat)
    (h : ∀ x ∈ (c :: rest), isProfileNameChar x = true) :
    lexTokens ((c :: rest).length + 1) p (c :: rest) =
      .ok [⟨.PROFILE, String.mk (c :: rest), p⟩, ⟨.EOF, "", p + (c :: rest).length⟩] := by
  have hc := h c (List.mem_cons_self c rest)
  have hrest : ∀ x ∈ rest, isProfileNameChar x = true :=
    fun x hx => h x (List.mem_cons_of_mem c hx)
  show lexTokens ((c :: rest).length + 1) p (c :: rest) = _
  rw [lexTokens]
  rw [if_neg (by rw [name_char_not_whitespace hc]; exact Bool.false_ne_true)]
  rw [if_neg (name_char_ne_bang hc), if_neg (name_char_ne_amp hc),
    if_neg (name_char_ne_pipe hc), if_neg (name_char_ne_lparen hc),
    if_neg (name_char_ne_rparen hc), if_pos hc]
  rw [takeWhile_all_true _ _ hrest, dropWhile_all_true _ _ hrest]
  have hempty : ∀ (f : Nat) (q : Nat), lexTokens f q [] = .ok [⟨.EOF, "", q⟩] := by
    intro f q; cases f <;> rfl
  show Except.map (fun x => (⟨.PROFILE, String.mk (c :: rest), p⟩ : Token) :: x)
      (lexTokens (c :: rest).length (p + (c :: rest).length) []) = _
  rw [hempty]
  rfl

theorem parseTokens_single_profile (v : String) (p q : Nat) :
    parseTokens [⟨.PROFILE, v, p⟩, ⟨.EOF, "", q⟩] = .ok (.ProfileName v) := rfl

/-- Claim C5 (amended): for every nonempty activation string consisting
solely of profile-name characters (letters, digits, `- _ . + @`), the helper
classifies the string as simple and the fast-path direct membership test
returns exactly the result of parsing the string as a profile expression
(a single bare NAME) and evaluating it against the same active profiles.
(The unrestricted claim fails on strings with surrounding whitespace; see
the counterexample.) -/
theorem simple_fast_path_agrees_on_name_strings (s : String) (active : List String)
    (hne : s.data ≠ []) (h : ∀ c ∈ s.data, isProfileNameChar c = true) :
    is_simple_profile s = true ∧
    matches_profiles (some s) active = .ok (active.contains s) ∧
    evaluate_profile_expression s active = .ok (active.contains s) := by
  have hstrip : pyStrip s = s :=
    pyStrip_eq_self s (fun c hc => name_char_not_whitespace (h c hc))
  have hsne : s ≠ "" := by
    intro e
    exact hne (by simp [e])
  have hsimple : is_simple_profile s = true := by
    unfold is_simple_profile
    rw [hstrip, if_neg hsne, List.all_eq_true]
    intro c hc
    have h1 := name_char_ne_bang (h c hc)
    have h2 := name_char_ne_amp (h c hc)
    have h3 := name_char_ne_pipe (h c hc)
    have h4 := name_char_ne_lparen (h c hc)
    have h5 := name_char_ne_rparen (h c hc)
    simp [h1, h2, h3, h4, h5]
  have hparse : parse_profile_expression s = .ok (.ProfileName s) := by
    have h1 : parse_profile_expression s =
        lexTokens (s.data.length + 1) 0 s.data >>= parseTokens := by
      show lexTokens ((pyStrip s).data.length + 1) 0 (pyStrip s).data >>= parseTokens =
        lexTokens (s.data.length + 1) 0 s.data >>= parseTokens
      rw [hstrip]
    rw [h1]
    cases hd : s.data with
    | nil => exact absurd hd hne
    | cons c rest =>
      rw [lexTokens_name_run c rest 0 (hd ▸ h)]
      have hmk : String.mk (c :: rest) = s := (congrArg String.mk hd).symm
      show parseTokens [⟨.PROFILE, String.mk (c :: rest), 0⟩, ⟨.EOF, "", 0 + (c :: rest).length⟩] =
        .ok (.ProfileName s)
      rw [parseTokens_single_profile, hmk]
  have heval : evaluate_profile_expression s active = .ok (active.contains s) := by
    show parse_profile_expression s >>= (fun expr => Except.ok (expr.evaluate active)) =
      Except.ok (active.contains s)
    rw [hparse]
    rfl
  refine ⟨hsimple, ?_, heval⟩
  show (if is_simple_profile s = true then Except.ok (active.contains s)
    else evaluate_profile_expression s active) = Except.ok (active.contains s)
  simp [hsimple]

/-- Instantiation of the Claim C5 theorem at `"prod"` / `["prod", "dev"]`. -/
theorem simple_fast_path_agrees_on_name_strings_witness :
    is_simple_profile "prod" = true ∧
    matches_profiles (some "prod") ["prod", "dev"] = .ok (["prod", "dev"].contains "prod") ∧
    evaluate_profile_expression "prod" ["prod", "dev"] = .ok (["prod", "dev"].contains "prod") :=
  simple_fast_path_agrees_on_name_strings "prod" ["prod", "dev"] (by decide) (by decide)

theorem dlookup_dinsert_self {α : Type} (d : List (String × α)) (k : String) (v : α) :
    dlookup (dinsert d k v) k = some v := by
  induction d with
  | nil => simp [dinsert, dlookup]
  | cons kv rest ih =>
    by_cases h : kv.1 = k
    · simp [dinsert, dlookup, h]
    · obtain ⟨k1, v1⟩ := kv
      simp only at h
      simp [dinsert, dlookup, h, ih]

theorem dlookup_dinsert_ne {α : Type} (d : List (String × α)) (k1 k : String) (v : α)
    (h : k1 ≠ k) : dlookup (dinsert d k1 v) k = dlookup d k := by
  induction d with
  | nil => simp [dinsert, dlookup, h]
  | cons kv rest ih =>
    by_cases hk : kv.1 = k1
    · simp [dinsert, dlookup, hk, h]
    · obtain ⟨ka, va⟩ := kv
      simp only at hk
      by_cases hk2 : ka = k
      · simp [dinsert, dlookup, hk, hk2, Ne.symm h]
      · simp [dinsert, dlookup, hk, hk2, ih]

theorem dlookup_deep_merge_entry_fst_ne (base : List (String × CValue)) (key : String)
    (ov : CValue) (srcs : List (String × ConfigSource)) (src : ConfigSource) (pre : String)
    (kk : String) (h : key ≠ kk) :
    dlookup (deep_merge_entry base key ov srcs src pre).1 kk = dlookup base kk := by
  unfold deep_merge_entry
  split
  · exact dlookup_dinsert_ne _ _ _ _ h
  · exact dlookup_dinsert_ne _ _ _ _ h
  · exact dlookup_dinsert_ne _ _ _ _ h
theorem deep_merge_fst_indep :
    ∀ (base override : List (String × CValue)) (s1 s2 : List (String × ConfigSource))
      (src1 src2 : ConfigSource) (p1 p2 : String),
      (deep_merge base override s1 src1 p1).1 = (deep_merge base override s2 src2 p2).1 := by
  intro base override s1 s2 src1 src2 p1 p2
  refine deep_merge.induct
    (fun base override s1 src1 p1 =>
      ∀ s2 src2 p2, (deep_merge base override s1 src1 p1).1 =
        (deep_merge base override s2 src2 p2).1)
    (fun base k v s1 src1 p1 =>
      ∀ s2 src2 p2, (deep_merge_entry base k v s1 src1 p1).1 =
        (deep_merge_entry base k v s2 src2 p2).1)
    ?_ ?_ ?_ ?_ ?_ base override s1 src1 p1 s2 src2 p2
  · intro t base key bs os pp hlk s2 src2 p2
    unfold deep_merge_entry
    split <;> first | rfl | simp_all
  · intro base key bs os pp cp bd od hlk ih s2 src2 p2
    unfold deep_merge_entry
    split <;> try simp_all
    exact congrArg (fun x => dinsert base key (CValue.vdict x)) (ih s2 src2 (joinPath p2 key))
  · intro t base key bs os pp val hlk hnot s2 src2 p2
    unfold deep_merge_entry
    split <;> first | rfl | (simp_all; try exact absurd hlk.symm (hnot _))
  · intro base bs os pp s2 src2 p2
    rfl
  · intro base bs os pp k v rest step ihe ihr s2 src2 p2
    show (deep_merge step.1 rest step.2 os pp).1 =
      (deep_merge (deep_merge_entry base k v s2 src2 p2).1 rest
        (deep_merge_entry base k v s2 src2 p2).2 src2 p2).1
    rw [show (deep_merge_entry base k v s2 src2 p2).1 = step.1 from (ihe s2 src2 p2).symm]
    exact ihr (deep_merge_entry base k v s2 src2 p2).2 src2 p2
theorem deep_merge_fst_untouched :
    ∀ (override base : List (String × CValue)) (srcs : List (String × ConfigSource))
      (src : ConfigSource) (pre : String) (k : String), k ∉ dkeys override →
      dlookup (deep_merge base override srcs src pre).1 k = dlookup base k := by
  intro override
  induction override with
  | nil => intro base srcs src pre k _; rfl
  | cons kv rest ih =>
    intro base srcs src pre k hk
    obtain ⟨k0, ov⟩ := kv
    have h1 : k0 ≠ k := by
      intro e
      exact hk (by simp [dkeys, e])
    have h2 : k ∉ dkeys rest := by
      intro e
      exact hk (by simp [dkeys] at e ⊢; exact Or.inr e)
    show dlookup (deep_merge (deep_merge_entry base k0 ov srcs src pre).1 rest
      (deep_merge_entry base k0 ov srcs src pre).2 src pre).1 k = dlookup base k
    rw [ih _ _ _ _ _ h2]
    exact dlookup_deep_merge_entry_fst_ne _ _ _ _ _ _ _ h1

theorem deep_merge_lookup (override : List (String × CValue)) :
    ∀ (base : List (String × CValue)) (srcs : List (String × ConfigSource))
      (src : ConfigSource) (pre : String) (k : String), (dkeys override).Nodup →
      dlookup (deep_merge base override srcs src pre).1 k =
        (match dlookup override k, dlookup base k with
         | none, bv => bv
         | some (.vdict od), some (.vdict bd) =>
             some (.vdict (deep_merge bd od srcs src (joinPath pre k)).1)
         | some ov, _ => some ov) := by
  induction override with
  | nil => intro base srcs src pre k _; rfl
  | cons kv rest ih =>
    intro base srcs src pre k hnd
    obtain ⟨k0, ov⟩ := kv
    have hcons : (k0 :: dkeys rest).Nodup := hnd
    have hnd' : (dkeys rest).Nodup := (List.nodup_cons.mp hcons).2
    show dlookup (deep_merge (deep_merge_entry base k0 ov srcs src pre).1 rest
      (deep_merge_entry base k0 ov srcs src pre).2 src pre).1 k = _
    by_cases hk : k0 = k
    · subst hk
      have hk2 : k0 ∉ dkeys rest := (List.nodup_cons.mp hcons).1
      rw [deep_merge_fst_untouched rest _ _ _ _ k0 hk2]
      have hov : dlookup ((k0, ov) :: rest) k0 = some ov := by simp [dlookup]
      rw [hov]
      unfold deep_merge_entry
      generalize dlookup base k0 = obk
      cases obk with
      | none => cases ov <;> simp [dlookup_dinsert_self]
      | some bv => cases bv <;> cases ov <;> simp [dlookup_dinsert_self]
    · have hrk : dlookup ((k0, ov) :: rest) k = dlookup rest k := by simp [dlookup, hk]
      rw [ih _ _ _ _ _ hnd', dlookup_deep_merge_entry_fst_ne _ _ _ _ _ _ _ hk, hrk]
      cases hr : dlookup rest k with
      | none => rfl
      | some rv =>
        cases hb : dlookup base k with
        | none => cases rv <;> rfl
        | some bv =>
          cases rv <;> cases bv <;> try rfl
          exact congrArg (fun x => some (CValue.vdict x)) (deep_merge_fst_indep _ _ _ _ _ _ _ _)

/-- Claim C6: merging is a left-to-right fold whose per-key rule at each
mapping level is: a key present only in the override is inserted wholesale;
two mapping values are deep-merged recursively; in every other case the
override value replaces the base value wholesale.  Concretely, merging
`{server: {port: 8080, host: localhost}}@base.yml` then
`{server: {port: 80}}@prod.yml` yields `server.port = 80` sourced from
`prod.yml` and `server.host = localhost` sourced from `base.yml`, and
merging `{endpoints: [/health, /info]}` then `{endpoints: [/health,
/metrics]}` yields exactly the second list, never a concatenation. -/
theorem deep_merge_per_key_and_examples :
    (∀ (override base : List (String × CValue)) (srcs : List (String × ConfigSource))
       (src : ConfigSource) (pre k : String), (dkeys override).Nodup →
       dlookup (deep_merge base override srcs src pre).1 k =
         (match dlookup override k, dlookup base k with
          | none, bv => bv
          | some (.vdict od), some (.vdict bd) =>
              some (.vdict (deep_merge bd od srcs src (joinPath pre k)).1)
          | some ov, _ => some ov)) ∧
    (merge_configs
      [⟨[("server", .vdict [("port", .vint 8080), ("host", .vstr "localhost")])], "base.yml", none, 0⟩,
       ⟨[("server", .vdict [("port", .vint 80)])], "prod.yml", none, 0⟩]).1 =
      [("server", .vdict [("port", .vint 80), ("host", .vstr "localhost")])] ∧
    dlookup (merge_configs
      [⟨[("server", .vdict [("port", .vint 8080), ("host", .vstr "localhost")])], "base.yml", none, 0⟩,
       ⟨[("server", .vdict [("port", .vint 80)])], "prod.yml", none, 0⟩]).2 "server.port" =
      some ⟨"prod.yml", none⟩ ∧
    dlookup (merge_configs
      [⟨[("server", .vdict [("port", .vint 8080), ("host", .vstr "localhost")])], "base.yml", none, 0⟩,
       ⟨[("server", .vdict [("port", .vint 80)])], "prod.yml", none, 0⟩]).2 "server.host" =
      some ⟨"base.yml", none⟩ ∧
    (merge_configs
      [⟨[("endpoints", .vlist [.vstr "/health", .vstr "/info"])], "a.yml", none, 0⟩,
       ⟨[("endpoints", .vlist [.vstr "/health", .vstr "/metrics"])], "b.yml", none, 0⟩]).1 =
      [("endpoints", .vlist [.vstr "/health", .vstr "/metrics"])] :=
  ⟨fun override base srcs src pre k h => deep_merge_lookup override base srcs src pre k h,
   rfl, by decide, by decide, rfl⟩

/-- Instantiation of the Claim C6 per-key rule at a concrete merge. -/
theorem deep_merge_per_key_and_examples_witness :
    dlookup (deep_merge [("a", CValue.vint 1)] [("a", CValue.vint 2), ("b", CValue.vint 3)]
        [] ⟨"o.yml", none⟩ "").1 "a" =
      (match dlookup [("a", CValue.vint 2), ("b", CValue.vint 3)] "a",
             dlookup [("a", CValue.vint 1)] "a" with
       | none, bv => bv
       | some (.vdict od), some (.vdict bd) =>
           some (.vdict (deep_merge bd od [] ⟨"o.yml", none⟩ (joinPath "" "a")).1)
       | some ov, _ => some ov) :=
  deep_merge_per_key_and_examples.1 [("a", CValue.vint 2), ("b", CValue.vint 3)]
    [("a", CValue.vint 1)] [] ⟨"o.yml", none⟩ "" "a" (by decide)

/-- Claim C8 counterexample: for property path `a-b` the candidate
environment-variable names are `["A-B", "A_B"]`; with the caller-supplied
override mapping `A_B = override-value` and the system environment
`A-B = system-value`, the placeholder `${a-b}` resolves to the SYSTEM value:
the per-candidate-name scan finds the system hit for `A-B` before ever
consulting the override entry for `A_B`, so caller-supplied override values
do not uniformly precede system values as the claim states. -/
theorem env_override_interleaving_counterexample :
    property_path_to_env_vars "a-b" = ["A-B", "A_B"] ∧
    dlookup [("A_B", "override-value")] "A_B" = some "override-value" ∧
    resolve_single_value "${a-b}" [] (some [("A_B", "override-value")]) true []
      [("A-B", "system-value")] = ("system-value", true) :=
  ⟨rfl, rfl, rfl⟩

/-- Claim C8 (amended): per placeholder occurrence, `replace_match` is
exactly the first-hit chain (1) environment variables — where candidate
names are tried in order (standard form, then dash-converted form) and, per
candidate name, the caller-supplied override mapping is consulted before the
system environment — then (2) the VCAP metadata mapping when loaded and the
key is in its namespace, (3) the merged configuration tree, (4) the literal
default text, and (5) otherwise the matched `${...}` text is left untouched.
With config `database.host = localhost`,
`connection.url = "jdbc://${database.host}:5432"`, and override env var
`DATABASE_HOST = prod-db`, the placeholder resolves to the env value. -/
theorem resolve_precedence_chain_and_example :
    (∀ (key : String) (dflt : Option String) (g0 : String)
       (config : List (String × CValue)) (env : Option (List (String × String)))
       (use_sys : Bool) (vcap : List (String × CValue)) (sys : List (String × String)),
       replace_match key dflt g0 config env use_sys vcap sys =
         (match (get_env_value key (env.getD []) sys use_sys <|>
             (if !vcap.isEmpty && is_vcap_placeholder key then
               (get_nested_value vcap key).map pyStr else none) <|>
             (get_nested_value config key).map pyStr <|> dflt) with
          | some r => (r, true)
          | none => (g0, false))) ∧
    (∀ (name : String) (rest : List String) (env sys : List (String × String))
       (use_sys : Bool) (v : String), dlookup env name = some v →
       get_env_value_names (name :: rest) env sys use_sys = some v) ∧
    resolve_placeholders
      [("database", .vdict [("host", .vstr "localhost")]),
       ("connection", .vdict [("url", .vstr "jdbc://${database.host}:5432")])]
      10 (some [("DATABASE_HOST", "prod-db")]) false none none [] =
      ([("database", .vdict [("host", .vstr "localhost")]),
        ("connection", .vdict [("url", .vstr "jdbc://prod-db:5432")])], []) := by
  refine ⟨?_, ?_, rfl⟩
  · intro key dflt g0 config env use_sys vcap sys
    unfold replace_match
    cases hge : get_env_value key (env.getD []) sys use_sys with
    | some v => simp [Option.orElse]
    | none =>
      by_cases hv : (!vcap.isEmpty && is_vcap_placeholder key) = true
      · rw [if_pos hv]
        cases hvl : get_nested_value vcap key with
        | some w => simp [hv, Option.orElse]
        | none =>
          cases hcl : get_nested_value config key with
          | some w => simp [hv, Option.orElse]
          | none => cases dflt <;> simp [hv, Option.orElse]
      · rw [if_neg hv]
        rw [Bool.not_eq_true] at hv
        cases hcl : get_nested_value config key with
        | some w => simp [hv, Option.orElse]
        | none => cases dflt <;> simp [hv, Option.orElse]
  · intro name rest env sys use_sys v h
    unfold get_env_value_names
    rw [h]

/-- Instantiation of the Claim C8 chain and override-first-per-name parts. -/
theorem resolve_precedence_chain_and_example_witness :
    get_env_value_names ["DATABASE_HOST"] [("DATABASE_HOST", "prod-db")] [] false =
      some "prod-db" :=
  resolve_precedence_chain_and_example.2.1 "DATABASE_HOST" [] [("DATABASE_HOST", "prod-db")]
    [] false "prod-db" rfl

theorem expandGo_preserves_nodup (groups : List (String × List String)) :
    ∀ (ps path : List String) (st st' : ExpandState),
      expandGo groups ps path st = .ok st' →
      st.result.Nodup ∧ (∀ x, x ∈ st.seen ↔ x ∈ st.result) →
      st'.result.Nodup ∧ (∀ x, x ∈ st'.seen ↔ x ∈ st'.result) := by
  intro ps path st
  refine expandGo.induct groups
    (fun ps path st => ∀ st', expandGo groups ps path st = .ok st' →
      st.result.Nodup ∧ (∀ x, x ∈ st.seen ↔ x ∈ st.result) →
      st'.result.Nodup ∧ (∀ x, x ∈ st'.seen ↔ x ∈ st'.result))
    ?_ ?_ ?_ ?_ ?_ ps path st
  · intro x st st' h hinv
    simp [expandGo] at h
    rw [← h]
    exact hinv
  · intro p rest path st hpath st' h hinv
    have hp : p ∈ path := by simpa using hpath
    simp [expandGo, hp] at h
  · intro p rest path st hpath hseen ih st' h hinv
    have hp : p ∉ path := by simpa using hpath
    have hs : p ∈ st.seen := by simpa using hseen
    simp [expandGo, hp, hs] at h
    exact ih st' h hinv
  · intro p rest path st hpath hseen st1 members hg ihm ihr st' h hinv
    have hp : p ∉ path := by simpa using hpath
    have hs : p ∉ st.seen := by simpa using hseen
    have hnp : p ∉ st.result := fun hm => hs ((hinv.2 p).mpr hm)
    have hinv1 : st1.result.Nodup ∧ (∀ x, x ∈ st1.seen ↔ x ∈ st1.result) := by
      constructor
      · simp [st1, List.nodup_append, hinv.1, hnp]
      · intro x
        simp only [st1, List.mem_append, List.mem_singleton]
        exact or_congr_left (hinv.2 x)
    simp [expandGo, hp, hs, bind, Except.bind] at h
    split at h
    · rename_i ms heq
      rw [hg] at heq
      injection heq with heq2
      subst heq2
      split at h
      · simp at h
      · rename_i st2 hm
        exact ihr st2 st' h (ihm st2 hm hinv1)
    · rename_i heq
      rw [hg] at heq
      cases heq
  · intro p rest path st hpath hseen st1 hg ih st' h hinv
    have hp : p ∉ path := by simpa using hpath
    have hs : p ∉ st.seen := by simpa using hseen
    have hnp : p ∉ st.result := fun hm => hs ((hinv.2 p).mpr hm)
    have hinv1 : st1.result.Nodup ∧ (∀ x, x ∈ st1.seen ↔ x ∈ st1.result) := by
      constructor
      · simp [st1, List.nodup_append, hinv.1, hnp]
      · intro x
        simp only [st1, List.mem_append, List.mem_singleton]
        exact or_congr_left (hinv.2 x)
    simp [expandGo, hp, hs] at h
    split at h
    · rename_i ms heq
      rw [hg] at heq
      cases heq
    · exact ih st' h hinv1
theorem expandGo_cons_seq (groups : List (String × List String)) (p : String)
    (rest path : List String) (st : ExpandState) :
    expandGo groups (p :: rest) path st =
      (expandGo groups [p] path st).bind (fun st2 => expandGo groups rest path st2) := by
  by_cases hp : p ∈ path
  · simp [expandGo, hp, Except.bind]
  · by_cases hs : p ∈ st.seen
    · simp [expandGo, hp, hs, Except.bind]
    · simp [expandGo, hp, hs]
      split
      · next ms heq =>
        cases hm : expandGo groups ms (path ++ [p]) ⟨st.result ++ [p], st.seen ++ [p]⟩ with
        | error e => simp [hm, bind, Except.bind]
        | ok st2 => simp [hm, bind, Except.bind, expandGo]
      · simp [Except.bind, expandGo]
/-- Claim C9: for a cycle-free expansion, `expand_profiles` returns a
duplicate-free list; each top-level requested profile is processed to
completion — its group's full depth-first expansion — before the next
top-level profile begins (the sequencing conjunct); and on the spec's
example the result is exactly
`["prod", "proddb", "postgres", "hikari", "prodmq"]`, with an
already-emitted profile (requesting `proddb` again) skipped entirely. -/
theorem expand_profiles_nodup_order_examples :
    (∀ (requested : List String) (groups : List (String × List String)) (l : List String),
       expand_profiles requested groups = .ok l → l.Nodup) ∧
    (∀ (groups : List (String × List String)) (p : String) (rest path : List String)
       (st : ExpandState),
       expandGo groups (p :: rest) path st =
         (expandGo groups [p] path st).bind (fun st2 => expandGo groups rest path st2)) ∧
    expand_profiles ["prod"] [("prod", ["proddb", "prodmq"]), ("proddb", ["postgres", "hikari"])] =
      .ok ["prod", "proddb", "postgres", "hikari", "prodmq"] ∧
    expand_profiles ["prod", "proddb"]
      [("prod", ["proddb", "prodmq"]), ("proddb", ["postgres", "hikari"])] =
      .ok ["prod", "proddb", "postgres", "hikari", "prodmq"] := by
  refine ⟨?_, expandGo_cons_seq, ?_, ?_⟩
  · intro requested groups l h
    unfold expand_profiles at h
    cases he : expandGo groups requested [] ⟨[], []⟩ with
    | error e => rw [he] at h; cases h
    | ok st' =>
      rw [he] at h
      injection h with h2
      rw [← h2]
      exact (expandGo_preserves_nodup groups requested [] ⟨[], []⟩ st' he
        ⟨List.nodup_nil, by simp⟩).1
  · simp [expand_profiles, expandGo, dlookup, Except.map, Except.bind, bind]
  · simp [expand_profiles, expandGo, dlookup, Except.map, Except.bind, bind]

/-- Instantiation of the Claim C9 duplicate-freedom at the spec example. -/
theorem expand_profiles_nodup_order_examples_witness :
    (["prod", "proddb", "postgres", "hikari", "prodmq"] : List String).Nodup :=
  expand_profiles_nodup_order_examples.1 ["prod"]
    [("prod", ["proddb", "prodmq"]), ("proddb", ["postgres", "hikari"])]
    ["prod", "proddb", "postgres", "hikari", "prodmq"]
    (by simp [expand_profiles, expandGo, dlookup, Except.map, Except.bind, bind])
end SPR
